import Mathlib

/-!
Verification development for the synthetic loan survival-data generator
(`src/data_generator.py`).  The Python source is shallowly embedded: floats
are modelled as exact rationals, NumPy/`random` draws are universally
quantified explicit inputs, and every function below is a direct transcription
of the corresponding Python code (line references given at each definition).
-/

/-- Python's `round` on a nonnegative-width value: round half to even
(banker's rounding), as used by `round(x)` / `np.round`. -/
def pythonRound (x : ℚ) : ℤ :=
  if x - ⌊x⌋ < 1/2 then ⌊x⌋
  else if 1/2 < x - ⌊x⌋ then ⌊x⌋ + 1
  else if 2 ∣ ⌊x⌋ then ⌊x⌋ else ⌊x⌋ + 1

/-- Python's `round(x, 1)`. -/
def roundTo1 (x : ℚ) : ℚ := (pythonRound (10 * x) : ℚ) / 10

/-- Python's `round(x, 2)`. -/
def roundTo2 (x : ℚ) : ℚ := (pythonRound (100 * x) : ℚ) / 100

/-- Python's `int(x)`: truncation toward zero. -/
def intTrunc (x : ℚ) : ℤ := if 0 ≤ x then ⌊x⌋ else -⌊-x⌋

/-- The amortizing-annuity monthly payment
(`data_generator.py` lines 106, 301, 531):
`amount * (monthly_rate * (1 + monthly_rate) ** term) / ((1 + monthly_rate) ** term - 1)`. -/
def annuityPayment (amount mr : ℚ) (term : ℕ) : ℚ :=
  amount * (mr * (1 + mr) ^ term) / ((1 + mr) ^ term - 1)

/-- DTI computation of `generate_synthetic_loan_data`
(`data_generator.py` lines 102-108).  Note the faithful transcription of
`interest_rates[loan_amounts.index(amount)]`: the rate is looked up at the
FIRST index whose loan amount equals this loan's amount (`List.indexOf`),
not at the loan's own index. -/
def dtiRatiosList (amounts incomes : List ℤ) (terms : List ℕ) (rates : List ℚ)
    (noise : List ℚ) : List ℚ :=
  (List.range amounts.length).map fun i =>
    let amount := amounts.getD i 0
    let idx := amounts.indexOf amount
    let mr := rates.getD idx 0 / 100 / 12
    let payment := annuityPayment (amount : ℚ) mr (terms.getD i 0)
    let dti := payment / (incomes.getD i 1 : ℚ) + noise.getD i 0
    min (roundTo2 dti) (9/10)

/-- The spec's wording for a single loan's DTI (spec §4.2 / glossary):
the loan's OWN amortized payment (own amount, own rate, own term) divided by
its income, plus the noise draw, rounded to 2 decimals and capped at 0.9. -/
def dtiSpec (amount income : ℤ) (term : ℕ) (rate : ℚ) (noise : ℚ) : ℚ :=
  min (roundTo2 (annuityPayment (amount : ℚ) (rate / 100 / 12) term / (income : ℚ) + noise))
    (9/10)

/-- The comparison key of `sorted(range(n), key=lambda i: default_probs[i],
reverse=True)` (`data_generator.py` line 159): index `i` precedes `j` when
`default_probs[i] ≥ default_probs[j]`. -/
def riskGE (rs : List ℚ) (i j : ℕ) : Prop := rs.getD j 0 ≤ rs.getD i 0

instance (rs : List ℚ) : DecidableRel (riskGE rs) := fun i j =>
  if h : rs.getD j 0 ≤ rs.getD i 0 then .isTrue h else .isFalse h

instance (rs : List ℚ) : IsTotal ℕ (riskGE rs) := ⟨fun _ _ => le_total _ _⟩

instance (rs : List ℚ) : IsTrans ℕ (riskGE rs) :=
  ⟨fun _ _ _ h1 h2 => le_trans h2 h1⟩

/-- `indices_by_risk` (`data_generator.py` line 159): loan indices sorted by
composite risk factor, descending (stable, like Python's `sorted`). -/
def riskOrder (rs : List ℚ) : List ℕ :=
  (List.range rs.length).insertionSort (riskGE rs)

/-- Default-flag assignment (`data_generator.py` lines 165, 170-172):
`default_flags` starts all-zero and the first `k` entries of
`indices_by_risk` are set to 1.  Functionally: index `i` is flagged iff it
lies among the first `k` indices of the descending risk order. -/
def assignDefaultFlags (rs : List ℚ) (k : ℕ) : List Bool :=
  (List.range rs.length).map fun i => decide (i ∈ (riskOrder rs).take k)

/-- Observed-flag assignment (`data_generator.py` lines 167, 173): set to 1
for exactly the loans flagged as defaulted. -/
def assignObservedFlags (rs : List ℚ) (k : ℕ) : List Bool :=
  (List.range rs.length).map fun i => decide (i ∈ (riskOrder rs).take k)

/-- Weibull scale of the time-to-default draw (`data_generator.py` line 181):
`max(3, int(20 * (1 - default_probs[i])))` — note `int`, i.e. truncation. -/
def scaleCode (p : ℚ) : ℤ := max 3 (intTrunc (20 * (1 - p)))

/-- Time-to-event assignment (`data_generator.py` lines 176-189). `w` is the
abstract value of `np.random.weibull(1.2)` for this loan, `p` its composite
risk factor.  Defaulted: `max(1, min(loan_term, round(w * scale)))`;
censored: `min(loan_term, max_history_months)`. -/
def timeToEvent (flag : Bool) (w p : ℚ) (term mh : ℤ) : ℤ :=
  if flag then max 1 (min term (pythonRound (w * (scaleCode p : ℚ))))
  else min term mh

/-- The scale as the spec sentence states it (claim C6's wording):
`max(3, round(20 * (1 - risk_factor)))` with `round`, not truncation. -/
def scaleClaimC6 (p : ℚ) : ℤ := max 3 (pythonRound (20 * (1 - p)))

/-- Defaulted time-to-event as claim C6 states it, using `scaleClaimC6`. -/
def tteClaimC6 (w p : ℚ) (term : ℤ) : ℤ :=
  max 1 (min term (pythonRound (w * (scaleClaimC6 p : ℚ))))

/-- The payment-status / days-past-due ladder of `generate_time_varying_data`
(`data_generator.py` lines 337-385), one month of one loan.  `u` is the value
of `np.random.random()` drawn this month; `pick lo hi` is the value of
`np.random.randint(lo, hi)` drawn this month (in `[lo, hi)` when `lo < hi`).
Months and `tte` are integers so that `tte - 3` can be negative, as in
Python.  The final arm models the Python fallthrough in which no branch
assigns: it is unreachable for generated months `1 ≤ m ≤ tte` (proved in the
coverage lemmas below). -/
def statusDPD (flag : Bool) (tte m : ℤ) (u : ℚ) (pick : ℕ → ℕ → ℕ) : String × ℕ :=
  if flag = false ∨ m < tte - 3 then
    if u < 85/100 then ("On Time", 0)
    else if u < 95/100 then ("0+", pick 1 31)
    else ("30+", pick 31 61)
  else if m = tte - 3 then
    if u < 3/10 then ("On Time", 0)
    else if u < 7/10 then ("0+", pick 1 31)
    else ("30+", pick 31 61)
  else if m = tte - 2 then
    if u < 2/10 then ("0+", pick 1 31)
    else if u < 6/10 then ("30+", pick 31 61)
    else ("60+", pick 61 91)
  else if m = tte - 1 then
    if u < 3/10 then ("30+", pick 31 61)
    else ("60+", pick 61 91)
  else if m = tte ∧ flag = true then ("90+", pick 91 121)
  else ("", 0)

/-- The running remaining balance (`data_generator.py` lines 313-327),
0-indexed: `balanceSeq A mr pay k` is the balance recorded at month `k + 1`.
Month 1 records the loan amount; afterwards
`max(0, prev - (pay - prev * mr))`. -/
def balanceSeq (A mr pay : ℚ) : ℕ → ℚ
  | 0 => A
  | k + 1 => max 0 (balanceSeq A mr pay k - (pay - balanceSeq A mr pay k * mr))

/-- One row of the time-varying table (`data_generator.py` lines 399-411).
(The `observation_date`/`event_timestamp` columns are date arithmetic on the
origination date and are not referenced by any invariant below.) -/
structure ObsRow where
  month : ℕ
  payment_status : String
  days_past_due : ℕ
  remaining_balance : ℤ
  payment_amount : ℤ
  inflation : ℚ
  unemployment : ℚ
  exchange : ℤ
deriving DecidableEq, Repr

/-- Placeholder row used only as the default of `List.getD`. -/
def row0 : ObsRow := ⟨0, "", 0, 0, 0, 0, 0, 0⟩

/-- The per-loan panel generator (`data_generator.py` lines 290-411): rows
for months `1 .. tte` (`months_to_generate = time_to_event` for both
defaulted and censored loans, lines 304-311).  `ms` is the materialized
macroeconomic series (month `m` reads index `m - 1`, line 389); `u m` /
`pick m lo hi` are this loan's random draws at month `m`.  The
`payment_status` reassignment of lines 394-396 is transcribed after the
ladder.  `panelRow` builds the row of month `m0 + 1`. -/
def panelRow (flag : Bool) (tte : ℕ) (mr : ℚ) (amount payment : ℤ)
    (u : ℕ → ℚ) (pick : ℕ → ℕ → ℕ → ℕ) (ms : List (ℚ × ℚ × ℤ)) (m0 : ℕ) : ObsRow :=
  { month := m0 + 1
    payment_status :=
      if flag = true ∧ m0 + 1 = tte then "90+"
      else (statusDPD flag (tte : ℤ) ((m0 + 1 : ℕ) : ℤ) (u (m0 + 1)) (pick (m0 + 1))).1
    days_past_due := (statusDPD flag (tte : ℤ) ((m0 + 1 : ℕ) : ℤ) (u (m0 + 1)) (pick (m0 + 1))).2
    remaining_balance := intTrunc (balanceSeq (amount : ℚ) mr (payment : ℚ) m0)
    payment_amount := payment
    inflation := (ms.getD m0 (0, 0, 0)).1
    unemployment := (ms.getD m0 (0, 0, 0)).2.1
    exchange := (ms.getD m0 (0, 0, 0)).2.2 }

def loanPanel (flag : Bool) (tte : ℕ) (amount : ℤ) (rate : ℚ) (term : ℕ)
    (u : ℕ → ℚ) (pick : ℕ → ℕ → ℕ → ℕ) (ms : List (ℚ × ℚ × ℤ)) : List ObsRow :=
  (List.range tte).map
    (panelRow flag tte (rate / 100 / 12) amount
      (pythonRound (annuityPayment (amount : ℚ) (rate / 100 / 12) term)) u pick ms)

/-- The validator's payment-band check (`data_generator.py` lines 500-513),
per record: `True` iff the record counts as a violation.  (`days_past_due`
is nonnegative in every generated row, so it is modelled as `ℕ` and the
validator's `dpd <= 0` becomes `dpd = 0`.) -/
def bandViolation (status : String) (dpd : ℕ) : Bool :=
  if status = "On Time" then decide (dpd ≠ 0)
  else if status = "0+" then decide (dpd = 0 ∨ 30 < dpd)
  else if status = "30+" then decide (dpd ≤ 30 ∨ 60 < dpd)
  else if status = "60+" then decide (dpd ≤ 60 ∨ 90 < dpd)
  else if status = "90+" then decide (dpd ≤ 90)
  else false

/-- The declared payment band of claim C5 / spec §3: the five admissible
(status, days-past-due) combinations. -/
def inDeclaredBand (status : String) (dpd : ℕ) : Prop :=
  (status = "On Time" ∧ dpd = 0) ∨
  (status = "0+" ∧ 1 ≤ dpd ∧ dpd ≤ 30) ∨
  (status = "30+" ∧ 31 ≤ dpd ∧ dpd ≤ 60) ∨
  (status = "60+" ∧ 61 ≤ dpd ∧ dpd ≤ 90) ∨
  (status = "90+" ∧ 90 < dpd)

instance (status : String) (dpd : ℕ) : Decidable (inDeclaredBand status dpd) := by
  unfold inDeclaredBand; infer_instance

/-- Clamp `x` to `[lo, hi]`, as `max(lo, min(hi, x))` in the macro series. -/
def clampQ (lo hi x : ℚ) : ℚ := max lo (min hi x)

/-- The macroeconomic series (`data_generator.py` lines 249-284): entry
`i - 1` holds month `i`'s `(inflation, unemployment, exchange)`.  `einf`,
`eun`, `efx` are the month-indexed normal noise draws, and `seas i` stands
for `sin(i * pi / 6)` (an irrational constant stream, supplied abstractly).
Each recurrence reads the previously APPENDED (hence rounded) value, as the
Python lists do. -/
def econSeries (einf eun efx seas : ℕ → ℚ) : ℕ → List (ℚ × ℚ × ℤ)
  | 0 => []
  | n + 1 =>
    let prev := econSeries einf eun efx seas n
    match prev.getLast? with
    | none => [(roundTo2 (53/10), roundTo1 (55/10), intTrunc 15200)]
    | some (pi0, pu0, px0) =>
      let i := n + 1
      prev ++ [(roundTo2 (clampQ 4 8 (pi0 * (8/10) + einf i + (1/10) * seas i)),
                roundTo1 (clampQ (9/2) 7 (pu0 * (9/10) + eun i + (1/20) * seas i)),
                intTrunc (clampQ 14000 16500 ((px0 : ℚ) * (19/20) + 15200 * (1/20) + efx i)))]

/-- Generator configuration (spec §6; `generate_and_save_bfi_loan_data`
signature, `data_generator.py` line 565).  The origination-date window and
`output_prefix` parameters only affect date columns and file names and are
not modelled. -/
structure GenConfig where
  numLoans : ℕ
  targetRate : ℚ
  maxHist : ℤ
deriving DecidableEq, Repr

/-- The random draws consumed by one loan of the static generator.
`amountDraw`, `rateDraw`, `incomeDraw` are the raw continuous draws
(`np.random.lognormal` / `np.random.uniform`); `termIdx` selects from the
product's term menu (`random.choice`); `risk` stands for the loan's computed
composite risk factor `default_probs[i]` (its formula multiplies an
`exp`-based employment factor, so its value is supplied abstractly);
`weibull` is the loan's `np.random.weibull(1.2)` draw. -/
structure LoanDraws where
  motorcycle : Bool
  amountDraw : ℚ
  rateDraw : ℚ
  termIdx : ℕ
  incomeDraw : ℚ
  dtiNoise : ℚ
  risk : ℚ
  weibull : ℚ
deriving DecidableEq, Repr

/-- Loan amount with the product-specific hard floor
(`data_generator.py` lines 68, 74): `max(floor, int(draw))`. -/
def loanAmount (d : LoanDraws) : ℤ :=
  if d.motorcycle then max 3000000 (intTrunc d.amountDraw)
  else max 50000000 (intTrunc d.amountDraw)

/-- Loan term from the product's menu (`data_generator.py` lines 70, 76). -/
def loanTerm (d : LoanDraws) : ℕ :=
  if d.motorcycle then [12, 24, 36].getD (d.termIdx % 3) 12
  else [12, 24, 36, 48, 60].getD (d.termIdx % 5) 12

/-- One static-table row (`data_generator.py` lines 192-212), restricted to
the columns referenced by the invariants below (identifier, date and
categorical columns are omitted). -/
structure StaticLoan where
  amount : ℤ
  rate : ℚ
  term : ℕ
  income : ℤ
  dti : ℚ
  risk : ℚ
  defaultFlag : Bool
  observed : Bool
  timeToEvent : ℤ
deriving DecidableEq, Repr

/-- Placeholder static row used only as the default of `List.getD`. -/
def loan0 : StaticLoan := ⟨0, 0, 0, 1, 0, 0, false, false, 0⟩

/-- The static profile generator (`generate_synthetic_loan_data`,
`data_generator.py` lines 11-221) as a function of the configuration and the
per-loan draws.  Returns `none` exactly when `indices_by_risk[i]` raises an
IndexError, i.e. when `int(round(num_loans * target_default_rate))` exceeds
`num_loans` (lines 162, 170-171); no configuration validation is performed
anywhere. -/
def staticTable (cfg : GenConfig) (draws : ℕ → LoanDraws) : List StaticLoan :=
  let n := cfg.numLoans
  let amounts := (List.range n).map fun i => loanAmount (draws i)
  let rates := (List.range n).map fun i => roundTo1 (draws i).rateDraw
  let terms := (List.range n).map fun i => loanTerm (draws i)
  let incomes := (List.range n).map fun i => intTrunc (draws i).incomeDraw
  let noises := (List.range n).map fun i => (draws i).dtiNoise
  let dtis := dtiRatiosList amounts incomes terms rates noises
  let risks := (List.range n).map fun i => (draws i).risk
  let k := (pythonRound (cfg.targetRate * n)).toNat
  let flags := assignDefaultFlags risks k
  let obs := assignObservedFlags risks k
  (List.range n).map fun i =>
    { amount := amounts.getD i 0
      rate := rates.getD i 0
      term := terms.getD i 0
      income := incomes.getD i 0
      dti := dtis.getD i 0
      risk := risks.getD i 0
      defaultFlag := flags.getD i false
      observed := obs.getD i false
      timeToEvent := timeToEvent (flags.getD i false) (draws i).weibull
        (risks.getD i 0) (terms.getD i 0 : ℤ) cfg.maxHist }

def generateStatic (cfg : GenConfig) (draws : ℕ → LoanDraws) : Option (List StaticLoan) :=
  if (pythonRound (cfg.targetRate * cfg.numLoans)).toNat ≤ cfg.numLoans then
    some (staticTable cfg draws)
  else none

/-- All random streams of one run, as a pure value: the whole of the
generator's randomness is a function of the seed fixed at module import
(`np.random.seed(42)` / `random.seed(42)`, `data_generator.py` lines 7-9). -/
structure Streams where
  loan : ℕ → LoanDraws
  u : ℕ → ℕ → ℚ
  pick : ℕ → ℕ → ℕ → ℕ → ℕ
  einf : ℕ → ℚ
  eun : ℕ → ℚ
  efx : ℕ → ℚ
  seas : ℕ → ℚ

/-- The concatenated per-loan panels (`data_generator.py` lines 238-415):
the macro horizon is `max(max(loan_term), max(time_to_event)) + 12` vs
`max_history_months + 12` (lines 241-245), the macro series is shared, and
loan `i` draws from its own month-indexed streams. -/
def panelTable (cfg : GenConfig) (st : Streams) (loans : List StaticLoan) : List ObsRow :=
  ((List.range loans.length).map fun i =>
    loanPanel (loans.getD i loan0).defaultFlag (loans.getD i loan0).timeToEvent.toNat
      (loans.getD i loan0).amount (loans.getD i loan0).rate (loans.getD i loan0).term
      (st.u i) (st.pick i)
      (econSeries st.einf st.eun st.efx st.seas
        (max (max (loans.foldr (fun l acc => max (l.term : ℤ) acc) 0)
              (loans.foldr (fun l acc => max l.timeToEvent acc) 0) + 12)
          (cfg.maxHist + 12)).toNat)).flatten

/-- The full generation run (`generate_and_save_bfi_loan_data`,
`data_generator.py` lines 565-622): static table, panel, validation and
preview.  Besides the static stage's IndexError, the run aborts (`none`)
at three later points, none of them a configuration check: with zero loans,
`static_loan_df['loan_term'].max()` is NaN so `range(1, max_months + 1)`
raises TypeError (lines 241-254); with an empty panel, `pd.DataFrame([])`
has no `loan_id` column and the validator raises KeyError (line 430); with
zero defaulted loans, the preview `.iloc[0]` raises IndexError (line 607).
Otherwise the run completes and returns both tables. -/
def genRun (cfg : GenConfig) (st : Streams) :
    Option (List StaticLoan × List ObsRow) :=
  (generateStatic cfg st.loan).bind fun loans =>
    if loans.length = 0 then none
    else if (panelTable cfg st loans).length = 0 then none
    else if loans.countP (fun l => l.defaultFlag) = 0 then none
    else some (loans, panelTable cfg st loans)

/-- Concrete constant random streams for evaluation runs. -/
def constStreams : Streams :=
  ⟨fun _ => ⟨true, 0, 15, 0, 3000000, 0, 1/2, 1⟩,
   fun _ _ => 0, fun _ _ lo _ => lo,
   fun _ => 0, fun _ => 0, fun _ => 0, fun _ => 0⟩

/-- Concrete valid configuration used by witnesses. -/
def cfgW : GenConfig := ⟨2, 1/2, 24⟩

/-! ### General lemmas about the rounding primitives -/

theorem pythonRound_le (x : ℚ) : (pythonRound x : ℚ) ≤ x + 1/2 := by
  have h1 : (⌊x⌋ : ℚ) ≤ x := Int.floor_le x
  have h2 : x < (⌊x⌋ : ℚ) + 1 := Int.lt_floor_add_one x
  unfold pythonRound
  split_ifs <;> push_cast <;> linarith

theorem le_pythonRound (x : ℚ) : x - 1/2 ≤ (pythonRound x : ℚ) := by
  have h1 : (⌊x⌋ : ℚ) ≤ x := Int.floor_le x
  have h2 : x < (⌊x⌋ : ℚ) + 1 := Int.lt_floor_add_one x
  unfold pythonRound
  split_ifs <;> push_cast <;> linarith

theorem intTrunc_of_nonneg {x : ℚ} (h : 0 ≤ x) : intTrunc x = ⌊x⌋ := by
  simp [intTrunc, h]

theorem intTrunc_intCast (n : ℤ) : intTrunc (n : ℚ) = n := by
  unfold intTrunc
  split_ifs <;> simp only [← Int.cast_neg, Int.floor_intCast, neg_neg]

/-- Evaluation rule: when `x ∈ [n, n + 1/2)`, `pythonRound x = n`. -/
theorem pythonRound_eq (x : ℚ) (n : ℤ) (h1 : (n : ℚ) ≤ x) (h2 : x < (n : ℚ) + 1/2) :
    pythonRound x = n := by
  have hf : ⌊x⌋ = n := Int.floor_eq_iff.mpr ⟨h1, by linarith⟩
  unfold pythonRound
  rw [hf, if_pos (by linarith)]

/-- Evaluation rule: when `x ∈ (n - 1/2, n)`, `pythonRound x = n`. -/
theorem pythonRound_eq_up (x : ℚ) (n : ℤ) (h1 : (n : ℚ) - 1/2 < x) (h2 : x < (n : ℚ)) :
    pythonRound x = n := by
  have hf : ⌊x⌋ = n - 1 := Int.floor_eq_iff.mpr ⟨by push_cast; linarith, by push_cast; linarith⟩
  unfold pythonRound
  rw [hf, if_neg (by push_cast; linarith), if_pos (by push_cast; linarith)]
  omega

/-- Evaluation rule for `roundTo2` via `pythonRound_eq`. -/
theorem roundTo2_eq (x : ℚ) (n : ℤ) (h1 : (n : ℚ) ≤ 100 * x) (h2 : 100 * x < (n : ℚ) + 1/2) :
    roundTo2 x = (n : ℚ) / 100 := by
  unfold roundTo2
  rw [pythonRound_eq (100 * x) n h1 h2]

/-- Evaluation rule for `roundTo2` via `pythonRound_eq_up`. -/
theorem roundTo2_eq_up (x : ℚ) (n : ℤ) (h1 : (n : ℚ) - 1/2 < 100 * x) (h2 : 100 * x < (n : ℚ)) :
    roundTo2 x = (n : ℚ) / 100 := by
  unfold roundTo2
  rw [pythonRound_eq_up (100 * x) n h1 h2]

theorem intCast_le_of_lt_ratCast {a z : ℤ} (h : (a : ℚ) - 1 < (z : ℚ)) : a ≤ z := by
  have : a - 1 < z := by exact_mod_cast (by push_cast; linarith : ((a - 1 : ℤ) : ℚ) < (z : ℚ))
  omega

theorem roundTo1_bounds (a b : ℤ) (x : ℚ) (h1 : (a : ℚ) / 10 ≤ x) (h2 : x < (b : ℚ) / 10) :
    (a : ℚ) / 10 ≤ roundTo1 x ∧ roundTo1 x ≤ (b : ℚ) / 10 := by
  have hz1 : 10 * x - 1/2 ≤ (pythonRound (10 * x) : ℚ) := le_pythonRound _
  have hz2 : (pythonRound (10 * x) : ℚ) ≤ 10 * x + 1/2 := pythonRound_le _
  have ha : a ≤ pythonRound (10 * x) := intCast_le_of_lt_ratCast (by linarith)
  have hb : pythonRound (10 * x) ≤ b := by
    have := intCast_le_of_lt_ratCast (a := pythonRound (10 * x)) (z := b) (by linarith)
    omega
  have ha' : (a : ℚ) ≤ (pythonRound (10 * x) : ℚ) := by exact_mod_cast ha
  have hb' : ((pythonRound (10 * x) : ℤ) : ℚ) ≤ (b : ℚ) := by exact_mod_cast hb
  unfold roundTo1
  constructor <;> linarith

/-! ### Lemmas about the delinquency ladder and the panel -/

theorem getD_map_range {α : Type} (f : ℕ → α) (n i : ℕ) (d : α) (h : i < n) :
    (((List.range n).map f).getD i d) = f i := by
  rw [List.getD_eq_getElem?_getD, List.getElem?_map, List.getElem?_range h]
  rfl

theorem statusDPD_dpd_le (flag : Bool) (tte m : ℤ) (u : ℚ) (pick : ℕ → ℕ → ℕ)
    (hpick : ∀ lo hi, lo < hi → lo ≤ pick lo hi ∧ pick lo hi < hi)
    (h : ¬(m = tte ∧ flag = true)) : (statusDPD flag tte m u pick).2 ≤ 90 := by
  have p1 := hpick 1 31 (by omega)
  have p2 := hpick 31 61 (by omega)
  have p3 := hpick 61 91 (by omega)
  unfold statusDPD
  split_ifs <;> dsimp only <;> omega

theorem statusDPD_at_event (tte : ℤ) (u : ℚ) (pick : ℕ → ℕ → ℕ) :
    statusDPD true tte tte u pick = ("90+", pick 91 121) := by
  have h1 : ¬(true = false ∨ tte < tte - 3) := by
    simp only [Bool.true_eq_false, false_or]; omega
  have h2 : tte ≠ tte - 3 := by omega
  have h3 : tte ≠ tte - 2 := by omega
  have h4 : tte ≠ tte - 1 := by omega
  unfold statusDPD
  rw [if_neg h1, if_neg h2, if_neg h3, if_neg h4, if_pos ⟨rfl, rfl⟩]

theorem statusDPD_band (flag : Bool) (tte m : ℤ) (u : ℚ) (pick : ℕ → ℕ → ℕ)
    (hpick : ∀ lo hi, lo < hi → lo ≤ pick lo hi ∧ pick lo hi < hi)
    (hcov : flag = true → m ≤ tte) :
    inDeclaredBand (statusDPD flag tte m u pick).1 (statusDPD flag tte m u pick).2 := by
  have p1 := hpick 1 31 (by omega)
  have p2 := hpick 31 61 (by omega)
  have p3 := hpick 61 91 (by omega)
  have p4 := hpick 91 121 (by omega)
  by_cases hb1 : flag = false ∨ m < tte - 3
  · unfold statusDPD inDeclaredBand
    rw [if_pos hb1]
    split_ifs <;> simp <;> omega
  · by_cases hb2 : m = tte - 3
    · unfold statusDPD inDeclaredBand
      rw [if_neg hb1, if_pos hb2]
      split_ifs <;> simp <;> omega
    · by_cases hb3 : m = tte - 2
      · unfold statusDPD inDeclaredBand
        rw [if_neg hb1, if_neg hb2, if_pos hb3]
        split_ifs <;> simp <;> omega
      · by_cases hb4 : m = tte - 1
        · unfold statusDPD inDeclaredBand
          rw [if_neg hb1, if_neg hb2, if_neg hb3, if_pos hb4]
          split_ifs <;> simp <;> omega
        · push_neg at hb1
          have hf : flag = true := by
            cases flag with
            | false => exact absurd rfl hb1.1
            | true => rfl
          have hm : m ≤ tte := hcov hf
          have hmt : m = tte := by omega
          unfold statusDPD inDeclaredBand
          rw [if_neg (by push_neg; exact hb1), if_neg hb2, if_neg hb3, if_neg hb4,
            if_pos ⟨hmt, hf⟩]
          refine Or.inr (Or.inr (Or.inr (Or.inr ⟨rfl, by omega⟩)))

theorem bandViolation_eq_false_of_band (s : String) (dpd : ℕ)
    (h : inDeclaredBand s dpd) : bandViolation s dpd = false := by
  unfold inDeclaredBand at h
  unfold bandViolation
  rcases h with ⟨h1, h2⟩ | ⟨h1, h2⟩ | ⟨h1, h2⟩ | ⟨h1, h2⟩ | ⟨h1, h2⟩ <;> subst h1 <;>
    simp_all <;> omega

/-! ### Claim C6: time-to-event assignment -/

/-- C6 (counterexample): the claim computes the Weibull scale as
`max(3, round(20·(1-risk_factor)))`, but the code truncates
(`int(20 * (1 - default_probs[i]))`, line 181).  At risk factor `0.77`,
Weibull draw `1` and loan term `12`, the code's time-to-event is `4` while
the claim's formula yields `5`. -/
theorem c6_counterexample :
    timeToEvent true 1 (77/100) 12 24 = 4 ∧ tteClaimC6 1 (77/100) 12 = 5 ∧
      timeToEvent true 1 (77/100) 12 24 ≠ tteClaimC6 1 (77/100) 12 := by
  have harg : (20 : ℚ) * (1 - 77/100) = 23/5 := by norm_num
  have hsc : scaleCode (77/100) = 4 := by
    unfold scaleCode
    rw [harg, intTrunc_of_nonneg (by norm_num),
      show ⌊(23/5 : ℚ)⌋ = 4 from Int.floor_eq_iff.mpr ⟨by norm_num, by norm_num⟩]
    decide
  have hss : scaleClaimC6 (77/100) = 5 := by
    unfold scaleClaimC6
    rw [harg, pythonRound_eq_up (23/5) 5 (by norm_num) (by norm_num)]
    decide
  have hcode : timeToEvent true 1 (77/100) 12 24 = 4 := by
    unfold timeToEvent
    rw [if_pos rfl, hsc,
      pythonRound_eq (1 * ((4 : ℤ) : ℚ)) 4 (by push_cast; norm_num) (by push_cast; norm_num)]
    decide
  have hclaim : tteClaimC6 1 (77/100) 12 = 5 := by
    unfold tteClaimC6
    rw [hss,
      pythonRound_eq (1 * ((5 : ℤ) : ℚ)) 5 (by push_cast; norm_num) (by push_cast; norm_num)]
    decide
  refine ⟨hcode, hclaim, by rw [hcode, hclaim]; decide⟩

/-- C6 (amended): for defaulted loans, time_to_event is
`max(1, min(loan_term, round(w * scale)))` with scale
`max(3, trunc(20·(1-risk_factor)))` (truncation, not rounding); for
non-defaulted loans it is `min(loan_term, max_history_months)`; in all
cases `1 ≤ time_to_event ≤ loan_term` (given `loan_term ≥ 1`, and
`max_history_months ≥ 1` for the censored case). -/
theorem c6_time_to_event (flag : Bool) (w p : ℚ) (term mh : ℤ)
    (hterm : 1 ≤ term) (hmh : 1 ≤ mh) :
    (flag = true → timeToEvent flag w p term mh
      = max 1 (min term (pythonRound (w * ((max 3 (intTrunc (20 * (1 - p)))) : ℚ)))))
    ∧ (flag = false → timeToEvent flag w p term mh = min term mh)
    ∧ 1 ≤ timeToEvent flag w p term mh ∧ timeToEvent flag w p term mh ≤ term := by
  cases flag <;> simp [timeToEvent, scaleCode] <;> omega

/-- Witness for `c6_time_to_event` at a concrete defaulted loan. -/
theorem c6_time_to_event_witness :
    1 ≤ timeToEvent true 1 (1/2) 12 24 ∧ timeToEvent true 1 (1/2) 12 24 ≤ 12 :=
  (c6_time_to_event true 1 (1/2) 12 24 (by norm_num) (by norm_num)).2.2

/-! ### Claim C7: DTI uses the wrong loan's interest rate -/

/-- C7 (code bug): with two loans of equal amount 3000000, incomes 3000000,
terms 36 and interest rates 15.0 / 22.0 (zero DTI noise), the code computes
loan 1's dti_ratio as 0.03 using loan 0's rate — because
`interest_rates[loan_amounts.index(amount)]` looks up the FIRST loan with
that amount — whereas the annuity at loan 1's own rate 22.0 gives 0.04. -/
theorem c7_divergence :
    (dtiRatiosList [3000000, 3000000] [3000000, 3000000] [36, 36] [15, 22] [0, 0]).getD 1 0
        = 3/100
    ∧ dtiSpec 3000000 3000000 36 22 0 = 1/25
    ∧ dtiSpec 3000000 3000000 36 15 0 = 3/100
    ∧ (dtiRatiosList [3000000, 3000000] [3000000, 3000000] [36, 36] [15, 22] [0, 0]).getD 1 0
        ≠ dtiSpec 3000000 3000000 36 22 0 := by
  have hskel : (dtiRatiosList [3000000, 3000000] [3000000, 3000000] [36, 36] [15, 22] [0, 0]).getD 1 0
      = min (roundTo2 (annuityPayment ((3000000 : ℤ) : ℚ) ((15 : ℚ) / 100 / 12) 36
          / ((3000000 : ℤ) : ℚ) + 0)) (9/10) := rfl
  have h15 : min (roundTo2 (annuityPayment ((3000000 : ℤ) : ℚ) ((15 : ℚ) / 100 / 12) 36
      / ((3000000 : ℤ) : ℚ) + 0)) (9/10 : ℚ) = 3/100 := by
    rw [roundTo2_eq _ 3 (by push_cast; norm_num [annuityPayment])
      (by push_cast; norm_num [annuityPayment])]
    push_cast
    rw [min_eq_left (by norm_num)]
  have h22 : min (roundTo2 (annuityPayment ((3000000 : ℤ) : ℚ) ((22 : ℚ) / 100 / 12) 36
      / ((3000000 : ℤ) : ℚ) + 0)) (9/10 : ℚ) = 1/25 := by
    rw [roundTo2_eq_up _ 4 (by push_cast; norm_num [annuityPayment])
      (by push_cast; norm_num [annuityPayment])]
    push_cast
    rw [min_eq_left (by norm_num)]
    norm_num
  have e1 : (dtiRatiosList [3000000, 3000000] [3000000, 3000000] [36, 36] [15, 22] [0, 0]).getD 1 0
      = 3/100 := hskel.trans h15
  have e2 : dtiSpec 3000000 3000000 36 22 0 = 1/25 := h22
  have e3 : dtiSpec 3000000 3000000 36 15 0 = 3/100 := h15
  exact ⟨e1, e2, e3, by rw [e1, e2]; norm_num⟩

/-! ### Claim C8: no fail-fast configuration validation exists -/

/-- C9: the whole run is a pure function of (seed, configuration): for any
derivation of the random streams from the seed, two runs with equal seeds
and equal configurations produce equal static and time-varying tables. -/
theorem c9_determinism (seedStreams : ℕ → Streams) (cfg1 cfg2 : GenConfig)
    (s1 s2 : ℕ) (hs : s1 = s2) (hcfg : cfg1 = cfg2) :
    genRun cfg1 (seedStreams s1) = genRun cfg2 (seedStreams s2) := by
  subst hs; subst hcfg; rfl

/-- Witness for `c9_determinism` at a concrete seed and configuration. -/
theorem c9_determinism_witness :
    genRun cfgW (constStreams) = genRun cfgW (constStreams) :=
  c9_determinism (fun _ => constStreams) cfgW cfgW 0 0 rfl rfl

/-! ### Claim C10: interest-rate bounds and division safety -/

/-- C10: a Motorcycle rate draw lies in `[15, 22)` and a Car draw in
`[12, 18)` (numpy `uniform(low, high)`), so after rounding to one decimal
the stored rate is in `[15, 22]` resp. `[12, 18]`, hence in `[12, 22]`;
the monthly rate is strictly positive and the annuity denominator
`(1 + monthly_rate)^term - 1` is nonzero for every `term ≥ 1`, so every
evaluation of the payment formula is division-by-zero free. -/
theorem c10_rate_bounds (motor : Bool) (d : ℚ) (T : ℕ) (hT : 1 ≤ T)
    (hd : if motor then 15 ≤ d ∧ d < 22 else 12 ≤ d ∧ d < 18) :
    (if motor then 15 ≤ roundTo1 d ∧ roundTo1 d ≤ 22
     else 12 ≤ roundTo1 d ∧ roundTo1 d ≤ 18)
    ∧ 12 ≤ roundTo1 d ∧ roundTo1 d ≤ 22
    ∧ 0 < roundTo1 d / 100 / 12
    ∧ (1 + roundTo1 d / 100 / 12) ^ T - 1 ≠ 0 := by
  have hrange : 12 ≤ roundTo1 d ∧ roundTo1 d ≤ 22 ∧
      (if motor then 15 ≤ roundTo1 d ∧ roundTo1 d ≤ 22
       else 12 ≤ roundTo1 d ∧ roundTo1 d ≤ 18) := by
    cases motor with
    | true =>
      simp only [if_true] at hd ⊢
      have h := roundTo1_bounds 150 220 d
        (by push_cast; linarith [hd.1]) (by push_cast; linarith [hd.2])
      push_cast at h
      exact ⟨by linarith [h.1], by linarith [h.2], by linarith [h.1], by linarith [h.2]⟩
    | false =>
      simp only [Bool.false_eq_true, if_false] at hd ⊢
      have h := roundTo1_bounds 120 180 d
        (by push_cast; linarith [hd.1]) (by push_cast; linarith [hd.2])
      push_cast at h
      exact ⟨by linarith [h.1], by linarith [h.2], by linarith [h.1], by linarith [h.2]⟩
  have hmr : 0 < roundTo1 d / 100 / 12 := by linarith [hrange.1]
  have hpow : 1 < (1 + roundTo1 d / 100 / 12) ^ T :=
    one_lt_pow₀ (by linarith) (by omega)
  exact ⟨hrange.2.2, hrange.1, hrange.2.1, hmr, by linarith⟩

/-- Witness for `c10_rate_bounds` at a concrete Motorcycle draw. -/
theorem c10_rate_bounds_witness :
    (if true then 15 ≤ roundTo1 (16 : ℚ) ∧ roundTo1 (16 : ℚ) ≤ 22
     else 12 ≤ roundTo1 (16 : ℚ) ∧ roundTo1 (16 : ℚ) ≤ 18)
    ∧ 12 ≤ roundTo1 (16 : ℚ) ∧ roundTo1 (16 : ℚ) ≤ 22
    ∧ 0 < roundTo1 (16 : ℚ) / 100 / 12
    ∧ (1 + roundTo1 (16 : ℚ) / 100 / 12) ^ 12 - 1 ≠ 0 :=
  c10_rate_bounds true 16 12 (by norm_num) (by norm_num)

/-! ### Claim C5: payment-status / days-past-due bands -/

/-- C5: every generated panel row's (payment_status, days_past_due) pair lies
in the declared band (On Time→0; 0+→[1,30]; 30+→[31,60]; 60+→[61,90];
90+→>90), and consequently the validator's payment-band check counts zero
violations on the generated rows. -/
theorem c5_payment_bands (flag : Bool) (tte : ℕ) (amount : ℤ) (rate : ℚ) (term : ℕ)
    (u : ℕ → ℚ) (pick : ℕ → ℕ → ℕ → ℕ) (ms : List (ℚ × ℚ × ℤ))
    (hpick : ∀ m lo hi, lo < hi → lo ≤ pick m lo hi ∧ pick m lo hi < hi) :
    (∀ r ∈ loanPanel flag tte amount rate term u pick ms,
        inDeclaredBand r.payment_status r.days_past_due
        ∧ bandViolation r.payment_status r.days_past_due = false)
    ∧ (loanPanel flag tte amount rate term u pick ms).countP
        (fun r => bandViolation r.payment_status r.days_past_due) = 0 := by
  have main : ∀ r ∈ loanPanel flag tte amount rate term u pick ms,
      inDeclaredBand r.payment_status r.days_past_due := by
    intro r hr
    rw [loanPanel, List.mem_map] at hr
    obtain ⟨m0, hm0, rfl⟩ := hr
    rw [List.mem_range] at hm0
    by_cases hov : flag = true ∧ m0 + 1 = tte
    · have hcast : ((m0 + 1 : ℕ) : ℤ) = (tte : ℤ) := by rw [hov.2]
      unfold panelRow
      dsimp only
      rw [if_pos hov, hov.1, hcast, statusDPD_at_event]
      refine Or.inr (Or.inr (Or.inr (Or.inr ⟨rfl, ?_⟩)))
      have := hpick (m0 + 1) 91 121 (by omega)
      omega
    · unfold panelRow
      dsimp only
      rw [if_neg hov]
      exact statusDPD_band flag (tte : ℤ) ((m0 + 1 : ℕ) : ℤ) (u (m0 + 1)) (pick (m0 + 1))
        (hpick (m0 + 1)) (fun _ => by omega)
  refine ⟨fun r hr => ⟨main r hr, bandViolation_eq_false_of_band _ _ (main r hr)⟩, ?_⟩
  rw [List.countP_eq_zero]
  intro r hr
  simp [bandViolation_eq_false_of_band _ _ (main r hr)]

/-- Witness for `c5_payment_bands`: zero violations on a concrete defaulted
loan's panel. -/
theorem c5_payment_bands_witness :
    (loanPanel true 2 3000000 12 12 (fun _ => 0) (fun _ lo _ => lo) []).countP
        (fun r => bandViolation r.payment_status r.days_past_due) = 0 :=
  (c5_payment_bands true 2 3000000 12 12 (fun _ => 0) (fun _ lo _ => lo) []
    (fun _ lo _ h => ⟨le_refl lo, h⟩)).2

/-! ### Claim C2: the defaulted loan's single 90+ observation -/

/-- C2: for a defaulted loan (`default_flag = 1`, `time_to_event = tte ≥ 1`),
the generated panel has exactly one observation with `days_past_due > 90`;
every row with `days_past_due > 90` is the month-`tte` row with
payment_status "90+"; no earlier month exceeds 90; the panel has `tte` rows
with months `1, …, tte` in order, so that observation is the last row. -/
theorem c2_default_event (tte : ℕ) (htte : 1 ≤ tte) (amount : ℤ) (rate : ℚ) (term : ℕ)
    (u : ℕ → ℚ) (pick : ℕ → ℕ → ℕ → ℕ) (ms : List (ℚ × ℚ × ℤ))
    (hpick : ∀ m lo hi, lo < hi → lo ≤ pick m lo hi ∧ pick m lo hi < hi) :
    (loanPanel true tte amount rate term u pick ms).countP
        (fun r => decide (90 < r.days_past_due)) = 1
    ∧ (∀ r ∈ loanPanel true tte amount rate term u pick ms,
        (90 < r.days_past_due ↔ r.month = tte))
    ∧ (∀ r ∈ loanPanel true tte amount rate term u pick ms,
        r.month = tte → r.payment_status = "90+" ∧ 90 < r.days_past_due)
    ∧ (loanPanel true tte amount rate term u pick ms).length = tte
    ∧ (∀ i, i < tte →
        ((loanPanel true tte amount rate term u pick ms).getD i row0).month = i + 1) := by
  have hdpd_lt : ∀ m0 : ℕ, m0 + 1 < tte →
      (panelRow true tte (rate / 100 / 12) amount
        (pythonRound (annuityPayment (amount : ℚ) (rate / 100 / 12) term))
        u pick ms m0).days_past_due ≤ 90 := by
    intro m0 h
    unfold panelRow
    dsimp only
    exact statusDPD_dpd_le true (tte : ℤ) ((m0 + 1 : ℕ) : ℤ) (u (m0 + 1)) (pick (m0 + 1))
      (hpick (m0 + 1)) (by rintro ⟨he, -⟩; omega)
  have hdpd_event : ∀ m0 : ℕ, m0 + 1 = tte →
      (panelRow true tte (rate / 100 / 12) amount
        (pythonRound (annuityPayment (amount : ℚ) (rate / 100 / 12) term))
        u pick ms m0).payment_status = "90+"
      ∧ (panelRow true tte (rate / 100 / 12) amount
        (pythonRound (annuityPayment (amount : ℚ) (rate / 100 / 12) term))
        u pick ms m0).days_past_due = pick (m0 + 1) 91 121 := by
    intro m0 he
    have hcast : ((m0 + 1 : ℕ) : ℤ) = (tte : ℤ) := by rw [he]
    unfold panelRow
    dsimp only
    rw [if_pos ⟨rfl, he⟩, hcast, statusDPD_at_event]
    exact ⟨rfl, rfl⟩
  have hevent_gt : ∀ m0 : ℕ, m0 + 1 = tte →
      90 < (panelRow true tte (rate / 100 / 12) amount
        (pythonRound (annuityPayment (amount : ℚ) (rate / 100 / 12) term))
        u pick ms m0).days_past_due := by
    intro m0 he
    rw [(hdpd_event m0 he).2]
    have := hpick (m0 + 1) 91 121 (by omega)
    omega
  refine ⟨?_, ?_, ?_, ?_, ?_⟩
  · obtain ⟨t, rfl⟩ : ∃ t, tte = t + 1 := ⟨tte - 1, by omega⟩
    rw [loanPanel, List.countP_map, List.range_succ, List.countP_append]
    have hz : List.countP
        ((fun r => decide (90 < r.days_past_due)) ∘ panelRow true (t + 1) (rate / 100 / 12)
          amount (pythonRound (annuityPayment (amount : ℚ) (rate / 100 / 12) term)) u pick ms)
        (List.range t) = 0 := by
      rw [List.countP_eq_zero]
      intro m0 hm0
      rw [List.mem_range] at hm0
      have := hdpd_lt m0 (by omega)
      simp only [Function.comp]
      simp only [decide_eq_true_eq]
      omega
    have ho : List.countP
        ((fun r => decide (90 < r.days_past_due)) ∘ panelRow true (t + 1) (rate / 100 / 12)
          amount (pythonRound (annuityPayment (amount : ℚ) (rate / 100 / 12) term)) u pick ms)
        [t] = 1 := by
      have := hevent_gt t rfl
      simp only [List.countP_cons, List.countP_nil, Function.comp]
      simp only [decide_eq_true_eq]
      rw [if_pos this]
    rw [hz, ho]
  · intro r hr
    rw [loanPanel, List.mem_map] at hr
    obtain ⟨m0, hm0, rfl⟩ := hr
    rw [List.mem_range] at hm0
    constructor
    · intro hgt
      by_contra hne
      have hlt : m0 + 1 < tte := by
        have : (panelRow true tte (rate / 100 / 12) amount
          (pythonRound (annuityPayment (amount : ℚ) (rate / 100 / 12) term))
          u pick ms m0).month = m0 + 1 := rfl
        rw [this] at hne
        omega
      have := hdpd_lt m0 hlt
      omega
    · intro hm
      have he : m0 + 1 = tte := hm
      exact hevent_gt m0 he
  · intro r hr
    rw [loanPanel, List.mem_map] at hr
    obtain ⟨m0, hm0, rfl⟩ := hr
    rw [List.mem_range] at hm0
    intro hm
    have he : m0 + 1 = tte := hm
    exact ⟨(hdpd_event m0 he).1, hevent_gt m0 he⟩
  · simp [loanPanel]
  · intro i hi
    rw [loanPanel, getD_map_range _ _ _ _ hi]
    rfl

/-- Witness for `c2_default_event`: a concrete 2-month defaulted loan. -/
theorem c2_default_event_witness :
    (loanPanel true 2 3000000 12 12 (fun _ => 0) (fun _ lo _ => lo) []).countP
        (fun r => decide (90 < r.days_past_due)) = 1 :=
  (c2_default_event 2 (by omega) 3000000 12 12 (fun _ => 0) (fun _ lo _ => lo) []
    (fun _ lo _ h => ⟨le_refl lo, h⟩)).1

/-! ### Claim C3: censored loans' horizon and delinquency cap -/

/-- C3: a censored loan's time_to_event is `min(loan_term,
max_history_months)`; its panel has exactly that many rows, every month is at
most that bound and the bound is attained (the maximum month equals
`min(loan_term, max_history_months)`), and no observation has
`days_past_due > 90` (precondition: `loan_term ≥ 1`, `max_history_months ≥ 1`). -/
theorem c3_censored_horizon (term mh : ℕ) (hterm : 1 ≤ term) (hmh : 1 ≤ mh)
    (w p : ℚ) (amount : ℤ) (rate : ℚ) (u : ℕ → ℚ) (pick : ℕ → ℕ → ℕ → ℕ)
    (ms : List (ℚ × ℚ × ℤ))
    (hpick : ∀ m lo hi, lo < hi → lo ≤ pick m lo hi ∧ pick m lo hi < hi) :
    (timeToEvent false w p (term : ℤ) (mh : ℤ)).toNat = min term mh
    ∧ (loanPanel false (min term mh) amount rate term u pick ms).length = min term mh
    ∧ (∀ r ∈ loanPanel false (min term mh) amount rate term u pick ms,
        r.days_past_due ≤ 90 ∧ r.month ≤ min term mh)
    ∧ (∃ r ∈ loanPanel false (min term mh) amount rate term u pick ms,
        r.month = min term mh) := by
  refine ⟨?_, ?_, ?_, ?_⟩
  · simp only [timeToEvent, Bool.false_eq_true, if_false]
    omega
  · simp [loanPanel]
  · intro r hr
    rw [loanPanel, List.mem_map] at hr
    obtain ⟨m0, hm0, rfl⟩ := hr
    rw [List.mem_range] at hm0
    constructor
    · unfold panelRow
      dsimp only
      exact statusDPD_dpd_le false ((min term mh : ℕ) : ℤ) ((m0 + 1 : ℕ) : ℤ)
        (u (m0 + 1)) (pick (m0 + 1)) (hpick (m0 + 1))
        (by rintro ⟨-, hfl⟩; simp at hfl)
    · show m0 + 1 ≤ min term mh
      omega
  · refine ⟨panelRow false (min term mh) (rate / 100 / 12) amount
      (pythonRound (annuityPayment (amount : ℚ) (rate / 100 / 12) term)) u pick ms
      (min term mh - 1), ?_, ?_⟩
    · rw [loanPanel]
      exact List.mem_map_of_mem _ (List.mem_range.mpr (by omega))
    · show (min term mh - 1) + 1 = min term mh
      omega

/-- Witness for `c3_censored_horizon`: loan_term 36, max_history_months 24. -/
theorem c3_censored_horizon_witness :
    (timeToEvent false 1 (1/2) ((36 : ℕ) : ℤ) ((24 : ℕ) : ℤ)).toNat = min 36 24
    ∧ (loanPanel false (min 36 24) 3000000 12 36 (fun _ => 0) (fun _ lo _ => lo) []).length
      = min 36 24 :=
  ⟨(c3_censored_horizon 36 24 (by omega) (by omega) 1 (1/2) 3000000 12 (fun _ => 0)
      (fun _ lo _ => lo) [] (fun _ lo _ h => ⟨le_refl lo, h⟩)).1,
   (c3_censored_horizon 36 24 (by omega) (by omega) 1 (1/2) 3000000 12 (fun _ => 0)
      (fun _ lo _ => lo) [] (fun _ lo _ h => ⟨le_refl lo, h⟩)).2.1⟩

/-! ### Claim C4: remaining-balance monotonicity -/

theorem annuity_payment_ge (A rate : ℚ) (T : ℕ) (hA : 3000000 ≤ A)
    (h12 : 12 ≤ rate) (h22 : rate ≤ 22) (hT1 : 1 ≤ T) (hT60 : T ≤ 60) :
    A * (rate / 100 / 12) ≤ (pythonRound (annuityPayment A (rate / 100 / 12) T) : ℚ) := by
  set mr := rate / 100 / 12 with hmr
  have hmr1 : 1/100 ≤ mr := by rw [hmr]; linarith
  have hmr2 : mr ≤ 11/600 := by rw [hmr]; linarith
  have hq1 : 1 < (1 + mr) ^ T := one_lt_pow₀ (by linarith) (by omega)
  have hqb : (1 + mr) ^ T ≤ 60001 := by
    have step1 : (1 + mr) ^ T ≤ (611/600 : ℚ) ^ T :=
      pow_le_pow_left₀ (by linarith) (by linarith) T
    have step2 : (611/600 : ℚ) ^ T ≤ (611/600 : ℚ) ^ 60 :=
      pow_le_pow_right₀ (by norm_num) hT60
    have step3 : (611/600 : ℚ) ^ 60 ≤ 60001 := by norm_num
    linarith
  have hne : (1 + mr) ^ T - 1 ≠ 0 := ne_of_gt (by linarith)
  have hkey : annuityPayment A mr T = A * mr + A * mr / ((1 + mr) ^ T - 1) := by
    unfold annuityPayment
    field_simp
    ring
  have hAmr : 30000 ≤ A * mr := by nlinarith
  have htail : 1/2 ≤ A * mr / ((1 + mr) ^ T - 1) := by
    rw [le_div_iff₀ (by linarith)]
    linarith
  have hlow : A * mr + 1/2 ≤ annuityPayment A mr T := by
    rw [hkey]
    linarith
  have hround := le_pythonRound (annuityPayment A mr T)
  linarith

theorem balanceSeq_nonneg_le (A mr pay : ℚ) (hA : 0 ≤ A) (hmr : 0 ≤ mr)
    (hpay : A * mr ≤ pay) : ∀ k, 0 ≤ balanceSeq A mr pay k ∧ balanceSeq A mr pay k ≤ A := by
  intro k
  induction k with
  | zero => exact ⟨hA, le_refl A⟩
  | succ n ih =>
    refine ⟨le_max_left 0 _, max_le hA ?_⟩
    have : balanceSeq A mr pay n * mr ≤ A * mr :=
      mul_le_mul_of_nonneg_right ih.2 hmr
    linarith

theorem balanceSeq_antitone (A mr pay : ℚ) (hA : 0 ≤ A) (hmr : 0 ≤ mr)
    (hpay : A * mr ≤ pay) (k : ℕ) :
    balanceSeq A mr pay (k + 1) ≤ balanceSeq A mr pay k := by
  have h := balanceSeq_nonneg_le A mr pay hA hmr hpay k
  apply max_le h.1
  have : balanceSeq A mr pay k * mr ≤ A * mr := mul_le_mul_of_nonneg_right h.2 hmr
  linarith

/-- C4: for every generated loan (loan_amount ≥ 3000000, interest_rate in
[12, 22], term in [1, 60]), the remaining_balance column of its panel is
nonnegative everywhere, non-increasing from each month to the next, and
equals loan_amount at month 1. -/
theorem c4_balance (flag : Bool) (tte : ℕ) (amount : ℤ) (hA : 3000000 ≤ amount)
    (rate : ℚ) (h12 : 12 ≤ rate) (h22 : rate ≤ 22) (term : ℕ) (hT1 : 1 ≤ term)
    (hT60 : term ≤ 60) (u : ℕ → ℚ) (pick : ℕ → ℕ → ℕ → ℕ) (ms : List (ℚ × ℚ × ℤ)) :
    (∀ r ∈ loanPanel flag tte amount rate term u pick ms, 0 ≤ r.remaining_balance)
    ∧ (∀ i, i + 1 < tte →
        ((loanPanel flag tte amount rate term u pick ms).getD (i + 1) row0).remaining_balance
          ≤ ((loanPanel flag tte amount rate term u pick ms).getD i row0).remaining_balance)
    ∧ (1 ≤ tte →
        ((loanPanel flag tte amount rate term u pick ms).getD 0 row0).remaining_balance
          = amount) := by
  have hAq : (3000000 : ℚ) ≤ (amount : ℚ) := by exact_mod_cast hA
  have hA0 : (0 : ℚ) ≤ (amount : ℚ) := by linarith
  have hmr0 : (0 : ℚ) ≤ rate / 100 / 12 := by linarith
  have hpay : (amount : ℚ) * (rate / 100 / 12)
      ≤ ((pythonRound (annuityPayment (amount : ℚ) (rate / 100 / 12) term) : ℤ) : ℚ) :=
    annuity_payment_ge (amount : ℚ) rate term hAq h12 h22 hT1 hT60
  refine ⟨?_, ?_, ?_⟩
  · intro r hr
    rw [loanPanel, List.mem_map] at hr
    obtain ⟨m0, hm0, rfl⟩ := hr
    show 0 ≤ intTrunc (balanceSeq (amount : ℚ) (rate / 100 / 12)
      ((pythonRound (annuityPayment (amount : ℚ) (rate / 100 / 12) term) : ℤ) : ℚ) m0)
    have hb := (balanceSeq_nonneg_le _ _ _ hA0 hmr0 hpay m0).1
    rw [intTrunc_of_nonneg hb]
    exact Int.floor_nonneg.mpr hb
  · intro i hi
    rw [loanPanel, getD_map_range _ _ _ _ hi, getD_map_range _ _ _ _ (by omega)]
    show intTrunc (balanceSeq (amount : ℚ) (rate / 100 / 12)
        ((pythonRound (annuityPayment (amount : ℚ) (rate / 100 / 12) term) : ℤ) : ℚ) (i + 1))
      ≤ intTrunc (balanceSeq (amount : ℚ) (rate / 100 / 12)
        ((pythonRound (annuityPayment (amount : ℚ) (rate / 100 / 12) term) : ℤ) : ℚ) i)
    rw [intTrunc_of_nonneg (balanceSeq_nonneg_le _ _ _ hA0 hmr0 hpay (i + 1)).1,
      intTrunc_of_nonneg (balanceSeq_nonneg_le _ _ _ hA0 hmr0 hpay i).1]
    exact Int.floor_le_floor (balanceSeq_antitone _ _ _ hA0 hmr0 hpay i)
  · intro h1
    rw [loanPanel, getD_map_range _ _ _ _ (by omega : (0 : ℕ) < tte)]
    show intTrunc (balanceSeq (amount : ℚ) (rate / 100 / 12)
      ((pythonRound (annuityPayment (amount : ℚ) (rate / 100 / 12) term) : ℤ) : ℚ) 0) = amount
    exact intTrunc_intCast amount

/-- Witness for `c4_balance`: month-1 balance equals the loan amount on a
concrete loan. -/
theorem c4_balance_witness :
    ((loanPanel true 2 3000000 12 12 (fun _ => 0) (fun _ lo _ => lo) []).getD 0
      row0).remaining_balance = 3000000 :=
  (c4_balance true 2 3000000 (by omega) 12 (by norm_num) (by norm_num) 12 (by omega)
    (by omega) (fun _ => 0) (fun _ lo _ => lo) []).2.2 (by omega)

/-! ### Claim C1: risk-ranked default selection -/

theorem riskOrder_perm (rs : List ℚ) : (riskOrder rs).Perm (List.range rs.length) :=
  List.perm_insertionSort _ _

theorem riskOrder_length (rs : List ℚ) : (riskOrder rs).length = rs.length := by
  rw [(riskOrder_perm rs).length_eq, List.length_range]

theorem riskOrder_nodup (rs : List ℚ) : (riskOrder rs).Nodup :=
  (riskOrder_perm rs).nodup_iff.mpr (List.nodup_range _)

theorem riskOrder_sorted (rs : List ℚ) : List.Sorted (riskGE rs) (riskOrder rs) :=
  List.sorted_insertionSort _ _

theorem mem_take_riskOrder_lt (rs : List ℚ) (k : ℕ) {i : ℕ}
    (hi : i ∈ (riskOrder rs).take k) : i < rs.length :=
  List.mem_range.mp ((riskOrder_perm rs).mem_iff.mp (List.mem_of_mem_take hi))

theorem countP_take_riskOrder (rs : List ℚ) (k : ℕ) (hk : k ≤ rs.length) :
    (List.range rs.length).countP (fun i => decide (i ∈ (riskOrder rs).take k)) = k := by
  rw [List.countP_eq_length_filter]
  have hperm : ((List.range rs.length).filter
      (fun i => decide (i ∈ (riskOrder rs).take k))).Perm ((riskOrder rs).take k) := by
    apply List.perm_of_nodup_nodup_toFinset_eq
    · exact (List.nodup_range _).filter _
    · exact List.Nodup.sublist (List.take_sublist k _) (riskOrder_nodup rs)
    · apply Finset.ext
      intro a
      simp only [List.mem_toFinset, List.mem_filter, List.mem_range, decide_eq_true_eq]
      exact ⟨fun h => h.2, fun h => ⟨mem_take_riskOrder_lt rs k h, h⟩⟩
  rw [hperm.length_eq, List.length_take, riskOrder_length, min_eq_left hk]

theorem riskOrder_take_drop_le (rs : List ℚ) (k : ℕ) {i j : ℕ}
    (hi : i ∈ (riskOrder rs).take k) (hj : j ∈ (riskOrder rs).drop k) :
    rs.getD j 0 ≤ rs.getD i 0 := by
  have hs : List.Pairwise (riskGE rs) ((riskOrder rs).take k ++ (riskOrder rs).drop k) := by
    rw [List.take_append_drop]
    exact riskOrder_sorted rs
  exact (List.pairwise_append.mp hs).2.2 i hi j hj

theorem mem_drop_riskOrder_of_not_take (rs : List ℚ) (k : ℕ) {j : ℕ} (hj : j < rs.length)
    (h : j ∉ (riskOrder rs).take k) : j ∈ (riskOrder rs).drop k := by
  have hmem : j ∈ riskOrder rs := (riskOrder_perm rs).mem_iff.mpr (List.mem_range.mpr hj)
  rw [← List.take_append_drop k (riskOrder rs), List.mem_append] at hmem
  tauto

theorem assignDefaultFlags_getD (rs : List ℚ) (k i : ℕ) (h : i < rs.length) :
    (assignDefaultFlags rs k).getD i false = decide (i ∈ (riskOrder rs).take k) := by
  unfold assignDefaultFlags
  exact getD_map_range _ _ _ _ h

theorem staticTable_eq (cfg : GenConfig) (draws : ℕ → LoanDraws) :
    staticTable cfg draws = (List.range cfg.numLoans).map fun i =>
      { amount := ((List.range cfg.numLoans).map fun j => loanAmount (draws j)).getD i 0
        rate := ((List.range cfg.numLoans).map fun j => roundTo1 (draws j).rateDraw).getD i 0
        term := ((List.range cfg.numLoans).map fun j => loanTerm (draws j)).getD i 0
        income := ((List.range cfg.numLoans).map fun j => intTrunc (draws j).incomeDraw).getD i 0
        dti := (dtiRatiosList
            ((List.range cfg.numLoans).map fun j => loanAmount (draws j))
            ((List.range cfg.numLoans).map fun j => intTrunc (draws j).incomeDraw)
            ((List.range cfg.numLoans).map fun j => loanTerm (draws j))
            ((List.range cfg.numLoans).map fun j => roundTo1 (draws j).rateDraw)
            ((List.range cfg.numLoans).map fun j => (draws j).dtiNoise)).getD i 0
        risk := ((List.range cfg.numLoans).map fun j => (draws j).risk).getD i 0
        defaultFlag := (assignDefaultFlags ((List.range cfg.numLoans).map fun j => (draws j).risk)
            (pythonRound (cfg.targetRate * cfg.numLoans)).toNat).getD i false
        observed := (assignObservedFlags ((List.range cfg.numLoans).map fun j => (draws j).risk)
            (pythonRound (cfg.targetRate * cfg.numLoans)).toNat).getD i false
        timeToEvent := timeToEvent
            ((assignDefaultFlags ((List.range cfg.numLoans).map fun j => (draws j).risk)
              (pythonRound (cfg.targetRate * cfg.numLoans)).toNat).getD i false)
            (draws i).weibull
            (((List.range cfg.numLoans).map fun j => (draws j).risk).getD i 0)
            ((((List.range cfg.numLoans).map fun j => loanTerm (draws j)).getD i 0 : ℕ) : ℤ)
            cfg.maxHist } := rfl

/-- C1: under `0 ≤ target_default_rate ≤ 1` the static generator succeeds;
the number of loans with `default_flag = 1` equals
`round(target_default_rate · num_loans)` exactly; a loan is flagged iff its
index lies among the first `round(r·n)` entries of the descending risk
order (the top-`round(r·n)` loans by composite risk factor); `observed`
equals `default_flag` for every loan; and every defaulted loan's risk
factor is at least every non-defaulted loan's risk factor. -/
theorem c1_default_selection (cfg : GenConfig) (draws : ℕ → LoanDraws)
    (h0 : 0 ≤ cfg.targetRate) (h1 : cfg.targetRate ≤ 1) :
    (generateStatic cfg draws).isSome = true
    ∧ (((generateStatic cfg draws).getD []).countP (fun l => l.defaultFlag) : ℤ)
        = pythonRound (cfg.targetRate * cfg.numLoans)
    ∧ (∀ i, i < cfg.numLoans →
        ((((generateStatic cfg draws).getD []).getD i loan0).defaultFlag = true
          ↔ i ∈ (riskOrder ((List.range cfg.numLoans).map fun j => (draws j).risk)).take
              (pythonRound (cfg.targetRate * cfg.numLoans)).toNat))
    ∧ (∀ l ∈ (generateStatic cfg draws).getD [], l.observed = l.defaultFlag)
    ∧ (∀ i j, i < cfg.numLoans → j < cfg.numLoans →
        (((generateStatic cfg draws).getD []).getD i loan0).defaultFlag = true →
        (((generateStatic cfg draws).getD []).getD j loan0).defaultFlag = false →
        (draws j).risk ≤ (draws i).risk) := by
  have hn0 : (0 : ℚ) ≤ (cfg.numLoans : ℚ) := Nat.cast_nonneg _
  have hx1 : cfg.targetRate * (cfg.numLoans : ℚ) ≤ (cfg.numLoans : ℚ) := by nlinarith
  have hx0 : 0 ≤ cfg.targetRate * (cfg.numLoans : ℚ) := mul_nonneg h0 hn0
  have hkle : pythonRound (cfg.targetRate * cfg.numLoans) ≤ (cfg.numLoans : ℤ) := by
    have hb := pythonRound_le (cfg.targetRate * (cfg.numLoans : ℚ))
    have hlt : (pythonRound (cfg.targetRate * (cfg.numLoans : ℚ)) : ℚ)
        < (cfg.numLoans : ℚ) + 1 := by linarith
    have hz : pythonRound (cfg.targetRate * (cfg.numLoans : ℚ)) < (cfg.numLoans : ℤ) + 1 := by
      exact_mod_cast hlt
    exact Int.lt_add_one_iff.mp hz
  have hk0 : 0 ≤ pythonRound (cfg.targetRate * cfg.numLoans) := by
    have hb := le_pythonRound (cfg.targetRate * (cfg.numLoans : ℚ))
    have hgt : (-1 : ℚ) < (pythonRound (cfg.targetRate * (cfg.numLoans : ℚ)) : ℚ) := by linarith
    have hz : (-1 : ℤ) < pythonRound (cfg.targetRate * (cfg.numLoans : ℚ)) := by
      exact_mod_cast hgt
    omega
  have hkn : (pythonRound (cfg.targetRate * cfg.numLoans)).toNat ≤ cfg.numLoans := by omega
  have hsome : generateStatic cfg draws = some (staticTable cfg draws) := by
    unfold generateStatic
    rw [if_pos hkn]
  have hgd : (generateStatic cfg draws).getD [] = staticTable cfg draws := by
    rw [hsome]
    rfl
  have hrsl : ((List.range cfg.numLoans).map fun j => (draws j).risk).length = cfg.numLoans := by
    rw [List.length_map, List.length_range]
  refine ⟨?_, ?_, ?_, ?_, ?_⟩
  · rw [hsome]
    rfl
  · rw [hgd, staticTable_eq, List.countP_map]
    have hcongr : ∀ x ∈ List.range cfg.numLoans,
        (((fun l : StaticLoan => l.defaultFlag) ∘ fun i =>
          (⟨((List.range cfg.numLoans).map fun j => loanAmount (draws j)).getD i 0,
            ((List.range cfg.numLoans).map fun j => roundTo1 (draws j).rateDraw).getD i 0,
            ((List.range cfg.numLoans).map fun j => loanTerm (draws j)).getD i 0,
            ((List.range cfg.numLoans).map fun j => intTrunc (draws j).incomeDraw).getD i 0,
            (dtiRatiosList
              ((List.range cfg.numLoans).map fun j => loanAmount (draws j))
              ((List.range cfg.numLoans).map fun j => intTrunc (draws j).incomeDraw)
              ((List.range cfg.numLoans).map fun j => loanTerm (draws j))
              ((List.range cfg.numLoans).map fun j => roundTo1 (draws j).rateDraw)
              ((List.range cfg.numLoans).map fun j => (draws j).dtiNoise)).getD i 0,
            ((List.range cfg.numLoans).map fun j => (draws j).risk).getD i 0,
            (assignDefaultFlags ((List.range cfg.numLoans).map fun j => (draws j).risk)
              (pythonRound (cfg.targetRate * cfg.numLoans)).toNat).getD i false,
            (assignObservedFlags ((List.range cfg.numLoans).map fun j => (draws j).risk)
              (pythonRound (cfg.targetRate * cfg.numLoans)).toNat).getD i false,
            timeToEvent
              ((assignDefaultFlags ((List.range cfg.numLoans).map fun j => (draws j).risk)
                (pythonRound (cfg.targetRate * cfg.numLoans)).toNat).getD i false)
              (draws i).weibull
              (((List.range cfg.numLoans).map fun j => (draws j).risk).getD i 0)
              ((((List.range cfg.numLoans).map fun j => loanTerm (draws j)).getD i 0 : ℕ) : ℤ)
              cfg.maxHist⟩ : StaticLoan)) x) = true
          ↔ (fun i => decide (i ∈ (riskOrder ((List.range cfg.numLoans).map
              fun j => (draws j).risk)).take
              (pythonRound (cfg.targetRate * cfg.numLoans)).toNat)) x = true := by
      intro x hx
      rw [List.mem_range] at hx
      show (assignDefaultFlags ((List.range cfg.numLoans).map fun j => (draws j).risk)
          (pythonRound (cfg.targetRate * cfg.numLoans)).toNat).getD x false = true ↔ _
      rw [assignDefaultFlags_getD _ _ _ (by rw [hrsl]; exact hx)]
    rw [List.countP_congr hcongr]
    have hcount := countP_take_riskOrder ((List.range cfg.numLoans).map fun j => (draws j).risk)
      (pythonRound (cfg.targetRate * cfg.numLoans)).toNat (by rw [hrsl]; exact hkn)
    rw [hrsl] at hcount
    rw [hcount, Int.toNat_of_nonneg hk0]
  · intro i hi
    rw [hgd, staticTable_eq, getD_map_range _ _ _ _ hi]
    show (assignDefaultFlags ((List.range cfg.numLoans).map fun j => (draws j).risk)
        (pythonRound (cfg.targetRate * cfg.numLoans)).toNat).getD i false = true ↔ _
    rw [assignDefaultFlags_getD _ _ _ (by rw [hrsl]; exact hi)]
    simp only [decide_eq_true_eq]
  · intro l hl
    rw [hgd, staticTable_eq] at hl
    obtain ⟨i, hi, rfl⟩ := List.mem_map.mp hl
    rfl
  · intro i j hi hj hfi hfj
    rw [hgd, staticTable_eq, getD_map_range _ _ _ _ hi] at hfi
    rw [hgd, staticTable_eq, getD_map_range _ _ _ _ hj] at hfj
    replace hfi : (assignDefaultFlags ((List.range cfg.numLoans).map fun j => (draws j).risk)
        (pythonRound (cfg.targetRate * cfg.numLoans)).toNat).getD i false = true := hfi
    replace hfj : (assignDefaultFlags ((List.range cfg.numLoans).map fun j => (draws j).risk)
        (pythonRound (cfg.targetRate * cfg.numLoans)).toNat).getD j false = false := hfj
    rw [assignDefaultFlags_getD _ _ _ (by rw [hrsl]; exact hi)] at hfi
    rw [assignDefaultFlags_getD _ _ _ (by rw [hrsl]; exact hj)] at hfj
    rw [decide_eq_true_eq] at hfi
    rw [decide_eq_false_iff_not] at hfj
    have hjd := mem_drop_riskOrder_of_not_take _ _ (by rw [hrsl]; exact hj) hfj
    have hle := riskOrder_take_drop_le _ _ hfi hjd
    rw [getD_map_range _ _ _ _ hi, getD_map_range _ _ _ _ hj] at hle
    exact hle

/-- Witness for `c1_default_selection` at a concrete valid configuration. -/
theorem c1_default_selection_witness :
    (generateStatic cfgW constStreams.loan).isSome = true :=
  (c1_default_selection cfgW constStreams.loan (by norm_num [cfgW]) (by norm_num [cfgW])).1

